import Mathlib

/-!
Shallow embedding of the dquest core (src/dqsqlstatement.cpp and
src/dqconnection.cpp) and verification of the specified properties.

Conventions of the embedding:
- `QString` is modelled as `String`, `QStringList` as `List String`.
- `QString::arg` substitution on the fixed format strings of the source is
  written as direct concatenation of the surrounding literal pieces.
- `QStringList::join(sep)` is modelled by `qjoin` below, which reproduces its
  semantics (separator between consecutive elements, empty string for the
  empty list).
- Pointers that may be null (`DQModelMetaInfo*`, the shared data pointer `d`
  of a `DQConnection`) are modelled as `Option`; a dereference of an absent
  value is modelled by an `Option`-valued operation returning `none`.
-/

/-- QStringList::join(sep): concatenation of the elements with `sep` between
consecutive elements, the empty string for the empty list. -/
def qjoin (sep : String) : List String → String
  | [] => ""
  | [x] => x
  | x :: y :: rest => x ++ sep ++ qjoin sep (y :: rest)

/-- DQModelMetaInfo, the model metadata consumed read-only by the statement
builder: table name (`name()`) and ordered field-name list
(`fieldNameList()`). -/
structure DQModelMetaInfo where
  name : String
  fieldNameList : List String
deriving DecidableEq

/-- DQQueryRules, the normalized query intent consumed by the statement
builder (accessors `metaInfo()`, `fields()`, `func()`, `expression()`,
`limit()`, `offset()`).  The filter expression is modelled by the text
`DQExpression::string()` would render: `none` stands for a null expression
(`isNull()` true), `some e` for a non-null expression rendering to `e`. -/
structure DQQueryRules where
  metaInfo : DQModelMetaInfo
  fields : List String
  func : String
  expression : Option String
  limit : Int
  offset : Int
deriving DecidableEq

/-- DQSqlStatement::_insertInto: renders the format
`"%4 INTO %1 (%2) values (%3);"` with the table name, the comma-joined
field list, the comma-joined `:`-prefixed placeholder list and the leading
keyword (`type`).  The placeholder list is built by the `foreach` loop
`values << ":" + f`. -/
def _insertInto (info : DQModelMetaInfo) (type : String) (fields : List String) : String :=
  type ++ " INTO " ++ info.name ++ " (" ++ qjoin "," fields ++ ") values (" ++
    qjoin "," (fields.map (fun f => ":" ++ f)) ++ ");"

/-- The statement `int idx = fields.indexOf("id"); if (idx >= 0)
fields.removeAt(idx);` of DQSqlStatement::insertInto / replaceInto:
`QList::indexOf` yields the first index of the value (or -1 when absent)
and `removeAt` removes that position, together removing the first
occurrence of "id" when present. -/
def removeFirstId (fields : List String) : List String :=
  match fields.indexOf? "id" with
  | some idx => fields.eraseIdx idx
  | none => fields

/-- DQSqlStatement::insertInto: starts from `info->fieldNameList()`, removes
the first occurrence of "id" when `with_id` is false, and delegates to
`_insertInto` with keyword "INSERT". -/
def insertInto (info : DQModelMetaInfo) (with_id : Bool) : String :=
  _insertInto info "INSERT" (if with_id then info.fieldNameList else removeFirstId info.fieldNameList)

/-- DQSqlStatement::replaceInto: identical to `insertInto` except for the
keyword "REPLACE". -/
def replaceInto (info : DQModelMetaInfo) (with_id : Bool) : String :=
  _insertInto info "REPLACE" (if with_id then info.fieldNameList else removeFirstId info.fieldNameList)

/-- DQSqlStatement::selectResultColumn: "*" when the field list is empty,
else the comma-joined field list; when `func()` is non-empty the result is
wrapped as `func(columns)`. -/
def selectResultColumn (rules : DQQueryRules) : String :=
  let res := if rules.fields.length = 0 then "*" else qjoin "," rules.fields
  if rules.func.isEmpty then res else rules.func ++ "(" ++ res ++ ")"

/-- DQSqlStatement::selectCore: the clause
`SELECT ALL <columns> FROM <table>` (format
`"SELECT %1 %2 FROM %3"` applied to "ALL", the result column clause and the
table name), followed by `WHERE <expr>` only when the expression is
non-null; the clauses are joined with a single space. -/
def selectCore (rules : DQQueryRules) : String :=
  qjoin " " (["SELECT " ++ "ALL" ++ " " ++ selectResultColumn rules ++ " FROM " ++ rules.metaInfo.name] ++
    (match rules.expression with
     | none => []
     | some e => ["WHERE " ++ e]))

/-- DQSqlStatement::limitAndOffset: `LIMIT n` and, only when `offset > 0`,
an appended `OFFSET m`; the pieces are joined with a single space. -/
def limitAndOffset (limit : Int) (offset : Int) : String :=
  qjoin " " (["LIMIT " ++ toString limit] ++
    (if offset > 0 then ["OFFSET " ++ toString offset] else []))

/-- DQSqlStatement::select: joins with single spaces the select core, then —
only when `rules.limit() > 0` — the limit clause, then the terminating ";".
The source calls `limitAndOffset(rules.limit())` with a single argument;
the second argument is the declaration's default.  Modelled from the spec:
the `offset` parameter of the limit-clause renderer defaults to 0 (the
declaring header is not part of the sources shown), so the call is
`limitAndOffset rules.limit 0` and `rules.offset` is never read. -/
def select (rules : DQQueryRules) : String :=
  qjoin " " (([selectCore rules] ++
    (if rules.limit > 0 then [limitAndOffset rules.limit 0] else [])) ++ [";"])

/-! Association-list operations modelling QMap (unique keys) and the heap of
allocated connection states. -/

/-- Lookup of the value stored for a key. -/
def alistLookup {α β : Type} [DecidableEq α] (l : List (α × β)) (k : α) : Option β :=
  match l with
  | [] => none
  | (k₁, v) :: rest => if k₁ = k then some v else alistLookup rest k

/-- QMap::contains. -/
def alistContains {α β : Type} [DecidableEq α] (l : List (α × β)) (k : α) : Bool :=
  (alistLookup l k).isSome

/-- QMap `map[k] = v`: replace the entry for the key when present, else add
one. -/
def alistSet {α β : Type} [DecidableEq α] (l : List (α × β)) (k : α) (v : β) : List (α × β) :=
  match l with
  | [] => [(k, v)]
  | (k₁, v₁) :: rest => if k₁ = k then (k, v) :: rest else (k₁, v₁) :: alistSet rest k v

/-- QMap::take(k): remove the entry for the key (QMap holds at most one
entry per key, so removing every pair with that key is the same removal). -/
def alistTake {α β : Type} [DecidableEq α] (l : List (α × β)) (k : α) : List (α × β) :=
  l.filter (fun kv => decide (kv.1 ≠ k))

/-- DQEngine, the pluggable backend interface, reduced to the observable
state the registry reads: `isOpen()` and `modelList()`.  Modelled from the
spec: the concrete engine implementation is an external collaborator; the
spec gives its interface `open/close/isOpen/addModel/modelList` and its
lifecycle (created empty, open sets a live connection, close releases it and
"does not forget bound models", addModel records the bound model type). -/
structure DQEngine where
  isOpen : Bool
  models : List Nat
deriving DecidableEq

/-- DQConnectionPriv, the shared data of a connection: the engine pointer
(`none` models a null `DQEngine*`) and the last-query slot.  `QSqlQuery` is
modelled by its query text; a default-constructed `QSqlQuery()` is the empty
text.  The `m_sql` sub-object and the mutex carry no modelled state. -/
structure DQConnectionPriv where
  engine : Option DQEngine
  lastQuery : String
deriving DecidableEq

/-- The process-wide state: the heap of allocated `DQConnectionPriv`
structures (addressed by allocation ids), the next fresh id, and the static
`QMap<DQModelMetaInfo*, DQConnection> mapping` of default connections.
Model metadata pointers are `Option Nat` (`none` is a null pointer); the
mapping stores the handle value `*this`, itself an `Option Nat` pointer to
a priv structure. -/
structure World where
  heap : List (Nat × DQConnectionPriv)
  nextId : Nat
  mapping : List (Option Nat × Option Nat)
deriving DecidableEq

/-- A DQConnection handle is its shared data pointer `d`: `none` when the
connection is null. -/
abbrev DQConnectionHandle := Option Nat

/-- Replace the priv structure a valid handle points at. -/
def updatePriv (w : World) (p : Nat) (f : DQConnectionPriv → DQConnectionPriv) : World :=
  match alistLookup w.heap p with
  | none => w
  | some priv => { w with heap := alistSet w.heap p (f priv) }

/-- DQConnection::isNull: the handle carries no shared data. -/
def connIsNull (c : DQConnectionHandle) : Bool := c.isNone

/-- DQConnection::isOpen: false when `d` is null or `d->engine` is null,
else `d->engine->isOpen()`.  (A handle to an unallocated id cannot be
produced by the modelled operations; it reads as not open.) -/
def connIsOpen (w : World) (c : DQConnectionHandle) : Bool :=
  match c with
  | none => false
  | some p =>
    match alistLookup w.heap p with
    | none => false
    | some priv =>
      match priv.engine with
      | none => false
      | some e => e.isOpen

/-- The engine installed by `new DQSqliteEngine()`.  Modelled from the spec:
an engine is "created empty (no physical connection)" with no bound
models. -/
def freshSqliteEngine : DQEngine := ⟨false, []⟩

/-- The macro PREPARE_PRIV():
`if (isNull()) d = new DQConnectionPriv();` — allocate a fresh priv
(null engine, default last query) at the next id —
`if (!d->engine) setEngine(new DQSqliteEngine());` — the connection is not
open here (its engine is null), so this `setEngine` call installs the fresh
engine.  Returns the updated world and the (possibly new) value of `d`. -/
def preparePriv (w : World) (c : DQConnectionHandle) : World × Nat :=
  match c with
  | none =>
    ( { w with
        heap := alistSet w.heap w.nextId ⟨some freshSqliteEngine, ""⟩
        nextId := w.nextId + 1 }, w.nextId )
  | some p =>
    match alistLookup w.heap p with
    | none => (w, p)
    | some priv =>
      match priv.engine with
      | some _ => (w, p)
      | none => ({ w with heap := alistSet w.heap p { priv with engine := some freshSqliteEngine } }, p)

/-- DQConnection::open(db): asserts the external database handle is live,
runs PREPARE_PRIV(), points `d->m_sql` at the handle (external, no modelled
state) and calls `d->engine->open(db)` — modelled from the spec: opening
the engine makes it report open.  Always returns true.  The result is the
return value, the new world and the new value of `d`. -/
def openConnection (w : World) (c : DQConnectionHandle) : Bool × World × DQConnectionHandle :=
  let wp := preparePriv w c
  (true,
   updatePriv wp.1 wp.2 (fun priv => { priv with engine := priv.engine.map (fun e => { e with isOpen := true }) }),
   some wp.2)

/-- DQConnection::close: returns unchanged when `d` is null; otherwise
detaches `d->m_sql` (external), calls `d->engine->close()` — a null engine
pointer there is a fault, modelled as `none` — and then, for every model in
`d->engine->modelList()`, runs `if (mapping.contains(m)) mapping.take(m)`.
Modelled from the spec: `engine->close()` releases the physical connection
(the engine stops reporting open) and keeps its bound model list. -/
def close (w : World) (c : DQConnectionHandle) : Option World :=
  match c with
  | none => some w
  | some p =>
    match alistLookup w.heap p with
    | none => none
    | some priv =>
      match priv.engine with
      | none => none
      | some e =>
        let w₁ := { w with heap := alistSet w.heap p { priv with engine := some { e with isOpen := false } } }
        some { w₁ with mapping := e.models.foldl (fun mp m => alistTake mp (some m)) w₁.mapping }

/-- DQConnection::addModel(metaInfo): returns false immediately on a null
metadata pointer; otherwise PREPARE_PRIV(), then
`res = d->engine->addModel(metaInfo)` — the engine implementation is
external, `engineOk` is its verdict; modelled from the spec: on success the
engine records the model among its bound models — and finally
`if (res && !mapping.contains(metaInfo)) mapping[metaInfo] = *this;`.
The result is the return value, the new world and the new value of `d`. -/
def addModel (w : World) (c : DQConnectionHandle) (metaInfo : Option Nat) (engineOk : Bool) :
    Bool × World × DQConnectionHandle :=
  match metaInfo with
  | none => (false, w, c)
  | some m =>
    let wp := preparePriv w c
    let w₁ := if engineOk then
        updatePriv wp.1 wp.2 (fun priv =>
          { priv with engine := priv.engine.map (fun e =>
              { e with models := if m ∈ e.models then e.models else e.models ++ [m] }) })
      else wp.1
    let w₂ := if engineOk && !(alistContains w₁.mapping (some m)) then
        { w₁ with mapping := alistSet w₁.mapping (some m) (some wp.2) }
      else w₁
    (engineOk, w₂, some wp.2)

/-- DQConnection::defaultConnection(metaInfo): a null metadata pointer gives
the null connection without the warning; a mapped model gives the stored
handle; an unmapped model gives the null connection and emits the
"not added to any connection yet" warning.  The second component records
whether the warning was emitted. -/
def defaultConnection (w : World) (metaInfo : Option Nat) : DQConnectionHandle × Bool :=
  match metaInfo with
  | none => (none, false)
  | some m =>
    match alistLookup w.mapping (some m) with
    | some c => (c, false)
    | none => (none, true)

/-- DQConnection::setDefaultConnection(metaInfo): `mapping[metaInfo] = *this`,
an unconditional override. -/
def setDefaultConnection (w : World) (c : DQConnectionHandle) (metaInfo : Option Nat) : World :=
  { w with mapping := alistSet w.mapping metaInfo c }

/-- DQConnection::setEngine(engine): returns false with no mutation when the
connection is open.  Otherwise `d->mutex.lock()` dereferences `d`: on a null
connection this is a fault, modelled as `none`.  On allocated, non-open
state the previous engine is deleted (exclusive ownership) and the new one
installed, returning true. -/
def setEngine (w : World) (c : DQConnectionHandle) (e : DQEngine) : Option (Bool × World) :=
  if connIsOpen w c then some (false, w)
  else
    match c with
    | none => none
    | some p =>
      match alistLookup w.heap p with
      | none => none
      | some priv => some (true, { w with heap := alistSet w.heap p { priv with engine := some e } })

/-- DQConnection::setLastQuery(query): returns unchanged unless the
connection is open; otherwise stores the query text under the mutex. -/
def setLastQuery (w : World) (c : DQConnectionHandle) (q : String) : World :=
  if connIsOpen w c then
    match c with
    | none => w
    | some p => updatePriv w p (fun priv => { priv with lastQuery := q })
  else w

/-- DQConnection::lastQuery: a default-constructed `QSqlQuery()` (the empty
text) unless the connection is open; otherwise the stored slot, read under
the mutex. -/
def lastQuery (w : World) (c : DQConnectionHandle) : String :=
  if connIsOpen w c then
    match c with
    | none => ""
    | some p =>
      match alistLookup w.heap p with
      | none => ""
      | some priv => priv.lastQuery
  else ""

/-! Helper lemmas about the association-list operations. -/

theorem alistLookup_set_self {α β : Type} [DecidableEq α] (l : List (α × β)) (k : α) (v : β) :
    alistLookup (alistSet l k v) k = some v := by
  induction l with
  | nil => simp [alistSet, alistLookup]
  | cons hd tl ih =>
    obtain ⟨k₁, v₁⟩ := hd
    by_cases h : k₁ = k
    · simp [alistSet, alistLookup, h]
    · simp [alistSet, alistLookup, h, ih]

theorem alistLookup_set_other {α β : Type} [DecidableEq α] (l : List (α × β)) (k k₂ : α) (v : β)
    (h : k ≠ k₂) : alistLookup (alistSet l k v) k₂ = alistLookup l k₂ := by
  induction l with
  | nil => simp [alistSet, alistLookup, h]
  | cons hd tl ih =>
    obtain ⟨k₁, v₁⟩ := hd
    by_cases h₁ : k₁ = k
    · simp [alistSet, alistLookup, h₁, h]
    · simp [alistSet, alistLookup, h₁, ih]

theorem alistLookup_take_self {α β : Type} [DecidableEq α] (l : List (α × β)) (k : α) :
    alistLookup (alistTake l k) k = none := by
  induction l with
  | nil => simp [alistTake, alistLookup]
  | cons hd tl ih =>
    obtain ⟨k₁, v₁⟩ := hd
    by_cases h : k₁ = k
    · simpa [alistTake, List.filter, h] using ih
    · simpa [alistTake, List.filter, h, alistLookup] using ih

theorem alistLookup_take_other {α β : Type} [DecidableEq α] (l : List (α × β)) (k k₂ : α)
    (h : k₂ ≠ k) : alistLookup (alistTake l k) k₂ = alistLookup l k₂ := by
  induction l with
  | nil => simp [alistTake, alistLookup]
  | cons hd tl ih =>
    obtain ⟨k₁, v₁⟩ := hd
    by_cases h₁ : k₁ = k
    · subst h₁
      simpa [alistTake, List.filter, alistLookup, Ne.symm h] using ih
    · by_cases h₂ : k₁ = k₂
      · simp [alistTake, List.filter, alistLookup, h₁, h₂, h]
      · simpa [alistTake, List.filter, alistLookup, h₁, h₂] using ih

theorem alistLookup_take_of_none {α β : Type} [DecidableEq α] (l : List (α × β)) (k k₂ : α)
    (h : alistLookup l k₂ = none) : alistLookup (alistTake l k) k₂ = none := by
  by_cases hk : k₂ = k
  · subst hk; exact alistLookup_take_self l k₂
  · rw [alistLookup_take_other l k k₂ hk]; exact h

theorem foldTake_of_none {β : Type} (ms : List Nat) (mp : List (Option Nat × β)) (k : Option Nat)
    (h : alistLookup mp k = none) :
    alistLookup (ms.foldl (fun mp m => alistTake mp (some m)) mp) k = none := by
  induction ms generalizing mp with
  | nil => exact h
  | cons m ms ih =>
    exact ih _ (alistLookup_take_of_none mp (some m) k h)

theorem foldTake_mem {β : Type} (ms : List Nat) (mp : List (Option Nat × β)) (m : Nat)
    (h : m ∈ ms) :
    alistLookup (ms.foldl (fun mp m => alistTake mp (some m)) mp) (some m) = none := by
  induction ms generalizing mp with
  | nil => cases h
  | cons m₁ ms ih =>
    by_cases hm : m ∈ ms
    · exact ih _ hm
    · have : m = m₁ := by
        cases h with
        | head => rfl
        | tail _ h₁ => exact absurd h₁ hm
      subst this
      exact foldTake_of_none ms _ (some m) (alistLookup_take_self mp (some m))

theorem foldTake_not_mem {β : Type} (ms : List Nat) (mp : List (Option Nat × β)) (k : Option Nat)
    (h : ∀ m ∈ ms, k ≠ some m) :
    alistLookup (ms.foldl (fun mp m => alistTake mp (some m)) mp) k = alistLookup mp k := by
  induction ms generalizing mp with
  | nil => rfl
  | cons m₁ ms ih =>
    rw [List.foldl_cons, ih _ (fun m hm => h m (List.mem_cons_of_mem m₁ hm)),
      alistLookup_take_other mp (some m₁) k (h m₁ (List.mem_cons_self m₁ ms))]

theorem preparePriv_mapping (w : World) (c : DQConnectionHandle) :
    (preparePriv w c).1.mapping = w.mapping := by
  match c with
  | none => rfl
  | some p =>
    simp only [preparePriv]
    cases alistLookup w.heap p with
    | none => rfl
    | some priv =>
      obtain ⟨eng, lq⟩ := priv
      cases eng <;> rfl

theorem updatePriv_mapping (w : World) (p : Nat) (f : DQConnectionPriv → DQConnectionPriv) :
    (updatePriv w p f).mapping = w.mapping := by
  simp only [updatePriv]
  cases alistLookup w.heap p with
  | none => rfl
  | some priv => rfl

/-! Helper lemmas about the statement builder. -/

theorem removeFirstId_eq_erase (l : List String) : removeFirstId l = l.erase "id" := by
  induction l with
  | nil => rfl
  | cons x xs ih =>
    by_cases h : x = "id"
    · subst h
      simp [removeFirstId, List.indexOf?_cons, List.erase_cons]
    · have hbeq : (x == "id") = false := by simp [h]
      have herase : (x :: xs).erase "id" = x :: xs.erase "id" := by
        rw [List.erase_cons, hbeq]
        simp
      rw [herase, ← ih]
      simp only [removeFirstId, List.indexOf?_cons, hbeq]
      cases hx : xs.indexOf? "id" with
      | none => simp [hx]
      | some i => simp [hx, List.eraseIdx_cons_succ]

theorem colonPrefixInjective : Function.Injective (fun f : String => ":" ++ f) := by
  intro a b hab
  have hd : (":" ++ a).data = (":" ++ b).data := congrArg String.data hab
  rw [String.data_append, String.data_append] at hd
  exact String.ext (List.append_cancel_left hd)

/-- C6: for every model whose (duplicate-free, per the metadata invariant)
field list contains the name "id", `insertInto(model, with_id=false)` builds
its statement over a column list containing no "id" and a placeholder list
containing no ":id", while `insertInto(model, with_id=true)` builds it over
lists containing "id" / ":id" exactly once; e.g. fields [id, name] with
includeId=false yield `INSERT INTO User (name) values (:name);`. -/
theorem claim_C6 (info : DQModelMetaInfo)
    (hnd : info.fieldNameList.Nodup) (hmem : "id" ∈ info.fieldNameList) :
    insertInto info false = _insertInto info "INSERT" (removeFirstId info.fieldNameList) ∧
    (removeFirstId info.fieldNameList).count "id" = 0 ∧
    ((removeFirstId info.fieldNameList).map (fun f => ":" ++ f)).count ":id" = 0 ∧
    insertInto info true = _insertInto info "INSERT" info.fieldNameList ∧
    info.fieldNameList.count "id" = 1 ∧
    (info.fieldNameList.map (fun f => ":" ++ f)).count ":id" = 1 := by
  have hone : info.fieldNameList.count "id" = 1 :=
    List.count_eq_one_of_mem hnd hmem
  have hzero : (removeFirstId info.fieldNameList).count "id" = 0 := by
    rw [removeFirstId_eq_erase, List.count_erase_self, hone]
  have hcolon : (":" ++ "id" : String) = ":id" := by decide
  refine ⟨rfl, hzero, ?_, rfl, hone, ?_⟩
  · rw [← hcolon, List.count_map_of_injective _ _ colonPrefixInjective, hzero]
  · rw [← hcolon, List.count_map_of_injective _ _ colonPrefixInjective, hone]

/-- Witness for C6 at the model `User` with fields [id, name]; the first
conjunct is the spec's end-to-end example. -/
theorem claim_C6_witness :
    insertInto ⟨"User", ["id", "name"]⟩ false = "INSERT INTO User (name) values (:name);" ∧
    (removeFirstId (["id", "name"] : List String)).count "id" = 0 ∧
    ((removeFirstId (["id", "name"] : List String)).map (fun f => ":" ++ f)).count ":id" = 0 ∧
    (["id", "name"] : List String).count "id" = 1 ∧
    ((["id", "name"] : List String).map (fun f => ":" ++ f)).count ":id" = 1 := by
  have h := claim_C6 ⟨"User", ["id", "name"]⟩ (by decide) (by decide)
  exact ⟨by decide, h.2.1, h.2.2.1, h.2.2.2.2.1, h.2.2.2.2.2⟩

/-- C7: for the same model metadata and the same with_id flag, `replaceInto`
and `insertInto` return texts differing only in the leading keyword REPLACE
versus INSERT; the shared remainder carries the identical column list and
placeholder list. -/
theorem claim_C7 (info : DQModelMetaInfo) (with_id : Bool) :
    ∃ rest, insertInto info with_id = "INSERT" ++ rest ∧
      replaceInto info with_id = "REPLACE" ++ rest := by
  simp only [insertInto, replaceInto, _insertInto, String.append_assoc]
  exact ⟨_, rfl, rfl⟩

/-- C4 counterexample: at a QueryRules for table `User` with empty field
list, empty aggregate function, null expression and limit 0, `select` does
not return `SELECT ALL * FROM User;` — the clause list is joined with
spaces, so a space separates the table name from the terminating
semicolon. -/
theorem claim_C4_cex :
    select ⟨⟨"User", []⟩, [], "", none, 0, 0⟩ = "SELECT ALL * FROM User ;" ∧
    select ⟨⟨"User", []⟩, [], "", none, 0, 0⟩ ≠ "SELECT ALL * FROM User;" := by
  exact ⟨by decide, by decide⟩

/-- C4 as amended: for every QueryRules with empty field list, empty
aggregate function name, null filter expression and limit = 0, `select`
returns exactly `SELECT ALL * FROM <table> ;` — with a single space between
the table name and the terminating semicolon, and no WHERE or LIMIT
clause. -/
theorem claim_C4 (rules : DQQueryRules) (hf : rules.fields = [])
    (hfn : rules.func = "") (he : rules.expression = none) (hl : rules.limit = 0) :
    select rules = "SELECT ALL * FROM " ++ rules.metaInfo.name ++ " ;" := by
  have h0 : ¬ (rules.limit > 0) := by rw [hl]; decide
  have hcol : selectResultColumn rules = "*" := by
    simp only [selectResultColumn, hf, hfn]
    decide
  simp only [select, selectCore, hcol, he, if_neg h0]
  simp only [List.append_nil, List.nil_append, qjoin]
  have h1 : ("SELECT " ++ "ALL" ++ " " ++ "*" ++ " FROM " : String) = "SELECT ALL * FROM " := by
    decide
  have h2 : (" " ++ ";" : String) = " ;" := by decide
  rw [String.append_assoc _ " " ";", h2, h1]

/-- Witness for the amended C4 at table `User`. -/
theorem claim_C4_witness :
    select ⟨⟨"User", []⟩, ([] : List String), "", none, 0, 99⟩ =
      "SELECT ALL * FROM " ++ "User" ++ " ;" :=
  claim_C4 ⟨⟨"User", []⟩, [], "", none, 0, 99⟩ rfl rfl rfl rfl

/-- C1 counterexample: at a QueryRules with limit = 5 and offset = 10 the
statement emitted by `select` carries the clause `LIMIT 5` and not
`LIMIT 5 OFFSET 10`: `select` invokes the limit-clause renderer with offset
0 instead of the query's offset, although the renderer itself does produce
`LIMIT 5 OFFSET 10` when handed offset 10. -/
theorem claim_C1_cex :
    select ⟨⟨"User", []⟩, [], "", none, 5, 10⟩ = "SELECT ALL * FROM User LIMIT 5 ;" ∧
    limitAndOffset 5 10 = "LIMIT 5 OFFSET 10" ∧
    select ⟨⟨"User", []⟩, [], "", none, 5, 10⟩ ≠
      qjoin " " [selectCore ⟨⟨"User", []⟩, [], "", none, 5, 10⟩, limitAndOffset 5 10, ";"] := by
  exact ⟨by decide, by decide, by decide⟩

/-- C1 as amended: when limit > 0, `select` appends the limit clause
rendered with offset 0 — exactly `LIMIT n`, the query's offset is not passed
to the limit-clause renderer — while the renderer, when it is handed an
offset m > 0, does append `OFFSET m`. -/
theorem claim_C1 (rules : DQQueryRules) (l o : Int) (hl : rules.limit > 0) (ho : o > 0) :
    select rules = selectCore rules ++ " " ++ limitAndOffset rules.limit 0 ++ " " ++ ";" ∧
    limitAndOffset rules.limit 0 = "LIMIT " ++ toString rules.limit ∧
    limitAndOffset l o = "LIMIT " ++ toString l ++ " " ++ ("OFFSET " ++ toString o) := by
  refine ⟨?_, ?_, ?_⟩
  · simp only [select, if_pos hl, List.append_assoc, List.cons_append, List.nil_append, qjoin,
      String.append_assoc]
  · simp only [limitAndOffset]
    rw [if_neg (by decide : ¬ ((0 : Int) > 0))]
    rfl
  · simp only [limitAndOffset, if_pos ho, List.cons_append, List.nil_append, qjoin]

/-- Witness for the amended C1 at the C1 counterexample input: limit 5,
offset 10. -/
theorem claim_C1_witness :
    select ⟨⟨"User", []⟩, [], "", none, 5, 10⟩ = "SELECT ALL * FROM User LIMIT 5 ;" ∧
    limitAndOffset 5 10 = "LIMIT 5 OFFSET 10" := by
  have h := claim_C1 ⟨⟨"User", []⟩, [], "", none, 5, 10⟩ 5 10 (by decide) (by decide)
  exact ⟨h.1.trans (by decide), h.2.2.trans (by decide)⟩

/-- C2 counterexample: a world reached by `addModel(7)` on a first
connection (id 0, the default for model 7) followed by `addModel(7)` on a
second connection (id 1).  Closing the second connection removes model 7's
mapping entry even though the entry points at connection 0, not at the
closed connection 1. -/
theorem claim_C2_cex :
    alistLookup (⟨[(0, ⟨some ⟨false, [7]⟩, ""⟩), (1, ⟨some ⟨false, [7]⟩, ""⟩)], 2,
        [(some 7, some 0)]⟩ : World).mapping (some 7) = some (some 0) ∧
    (close ⟨[(0, ⟨some ⟨false, [7]⟩, ""⟩), (1, ⟨some ⟨false, [7]⟩, ""⟩)], 2,
        [(some 7, some 0)]⟩ (some 1)).map (fun w => alistLookup w.mapping (some 7)) =
      some none := by
  exact ⟨by decide, by decide⟩

/-- C2 as amended: close() on a non-null Connection (whose engine pointer is
set) closes the engine and, for every model type the engine reports as
bound, removes that model's entry from the process-wide default-connection
mapping unconditionally — also when the entry points at a different
Connection; entries for models the engine does not report are left
unchanged. -/
theorem claim_C2 (w : World) (p : Nat) (priv : DQConnectionPriv) (e : DQEngine)
    (hp : alistLookup w.heap p = some priv) (he : priv.engine = some e) :
    ∃ w₁, close w (some p) = some w₁ ∧
      alistLookup w₁.heap p = some { priv with engine := some { e with isOpen := false } } ∧
      (∀ m ∈ e.models, alistLookup w₁.mapping (some m) = none) ∧
      (∀ k, (∀ m ∈ e.models, k ≠ some m) →
        alistLookup w₁.mapping k = alistLookup w.mapping k) := by
  simp only [close, hp, he]
  refine ⟨_, rfl, ?_, ?_, ?_⟩
  · exact alistLookup_set_self w.heap p _
  · intro m hm
    exact foldTake_mem e.models w.mapping m hm
  · intro k hk
    exact foldTake_not_mem e.models w.mapping k hk

/-- Witness for the amended C2: closing the connection with id 0, which has
an open engine with bound models 3 and 4, in a world whose mapping holds an
entry for model 3 and an entry for an unrelated model 9. -/
theorem claim_C2_witness :
    ∃ w₁, close ⟨[(0, ⟨some ⟨true, [3, 4]⟩, "q"⟩)], 1,
        [(some 3, some 0), (some 9, none)]⟩ (some 0) = some w₁ ∧
      alistLookup w₁.heap 0 = some ⟨some ⟨false, [3, 4]⟩, "q"⟩ ∧
      (∀ m ∈ [3, 4], alistLookup w₁.mapping (some m) = none) ∧
      (∀ k, (∀ m ∈ [3, 4], k ≠ some m) →
        alistLookup w₁.mapping k =
          alistLookup (⟨[(0, ⟨some ⟨true, [3, 4]⟩, "q"⟩)], 1,
            [(some 3, some 0), (some 9, none)]⟩ : World).mapping k) :=
  claim_C2 ⟨[(0, ⟨some ⟨true, [3, 4]⟩, "q"⟩)], 1, [(some 3, some 0), (some 9, none)]⟩
    0 ⟨some ⟨true, [3, 4]⟩, "q"⟩ ⟨true, [3, 4]⟩ (by decide) rfl

/-- C3 counterexample: setEngine on a null (default-constructed) Connection
does dereference the absent shared state: after `isOpen()` reports false,
`d->mutex.lock()` runs on the null `d`, modelled as the fault value
`none`. -/
theorem claim_C3_cex : setEngine ⟨[], 0, []⟩ none ⟨false, []⟩ = none := by decide

/-- C3 as amended: open and addModel (with a non-null model), called on a
null Connection, lazily allocate the shared state together with a default
engine and do not fault — open hands back a handle to a fresh state whose
default engine has been opened, addModel to a fresh state with an engine
present.  setEngine does not ensure-initialize: on a null Connection it
dereferences the absent state (the fault value). -/
theorem claim_C3 (w : World) (m : Nat) (engineOk : Bool) (e : DQEngine) :
    ((openConnection w none).1 = true ∧
      (openConnection w none).2.2 = some w.nextId ∧
      alistLookup (openConnection w none).2.1.heap w.nextId = some ⟨some ⟨true, []⟩, ""⟩) ∧
    ((addModel w none (some m) engineOk).2.2 = some w.nextId ∧
      (∃ priv, alistLookup (addModel w none (some m) engineOk).2.1.heap w.nextId = some priv ∧
        priv.engine.isSome = true)) ∧
    setEngine w none e = none := by
  refine ⟨⟨rfl, rfl, ?_⟩, ⟨rfl, ?_⟩, rfl⟩
  · simp only [openConnection, preparePriv, updatePriv, alistLookup_set_self, Option.map_some']
    rfl
  · cases engineOk with
    | false =>
      refine ⟨⟨some freshSqliteEngine, ""⟩, ?_, rfl⟩
      show alistLookup (alistSet w.heap w.nextId ⟨some freshSqliteEngine, ""⟩) w.nextId = _
      exact alistLookup_set_self _ _ _
    | true =>
      simp only [addModel, preparePriv, updatePriv, alistLookup_set_self, Option.map_some',
        Bool.true_and, eq_self_iff_true, if_true]
      cases hc : !alistContains w.mapping (some m) with
      | false =>
        simp only [hc, Bool.false_eq_true, if_false]
        refine ⟨_, alistLookup_set_self _ _ _, rfl⟩
      | true =>
        simp only [hc, eq_self_iff_true, if_true]
        refine ⟨_, alistLookup_set_self _ _ _, rfl⟩

/-- C5 counterexample: a null Connection is not open, yet setEngine on it
does not return true and install the engine — it dereferences the absent
shared state (the fault value). -/
theorem claim_C5_cex :
    connIsOpen ⟨[(5, ⟨some ⟨true, [1]⟩, ""⟩)], 6, []⟩ none = false ∧
    setEngine ⟨[(5, ⟨some ⟨true, [1]⟩, ""⟩)], 6, []⟩ none ⟨false, [2]⟩ = none := by
  exact ⟨by decide, by decide⟩

/-- C5 as amended: setEngine(newEngine) on an open Connection returns false
and leaves the world unchanged (no mutation); on a non-open Connection with
allocated shared state it returns true and replaces (destroying, by
exclusive ownership) the previously installed engine with the new one; on a
null Connection — also non-open — it faults on the absent state instead of
returning true. -/
theorem claim_C5 (w : World) (p : Nat) (priv : DQConnectionPriv) (e₂ : DQEngine)
    (hp : alistLookup w.heap p = some priv) :
    (connIsOpen w (some p) = true → setEngine w (some p) e₂ = some (false, w)) ∧
    (connIsOpen w (some p) = false →
      setEngine w (some p) e₂ =
        some (true, { w with heap := alistSet w.heap p { priv with engine := some e₂ } })) ∧
    setEngine w none e₂ = none := by
  refine ⟨?_, ?_, rfl⟩
  · intro ho
    simp [setEngine, ho]
  · intro ho
    simp [setEngine, ho, hp]

/-- Witness for the amended C5: on the open connection 0 setEngine returns
false and mutates nothing; on the closed (allocated, engine not open)
connection 0 of the second world it returns true and installs the new
engine in place of the old one. -/
theorem claim_C5_witness :
    setEngine ⟨[(0, ⟨some ⟨true, [3]⟩, "a"⟩)], 1, []⟩ (some 0) ⟨false, [2]⟩ =
      some (false, ⟨[(0, ⟨some ⟨true, [3]⟩, "a"⟩)], 1, []⟩) ∧
    setEngine ⟨[(0, ⟨some ⟨false, [3]⟩, "a"⟩)], 1, []⟩ (some 0) ⟨false, [2]⟩ =
      some (true, ⟨[(0, ⟨some ⟨false, [2]⟩, "a"⟩)], 1, []⟩) := by
  constructor
  · exact (claim_C5 ⟨[(0, ⟨some ⟨true, [3]⟩, "a"⟩)], 1, []⟩ 0 ⟨some ⟨true, [3]⟩, "a"⟩
      ⟨false, [2]⟩ (by decide)).1 (by decide)
  · have h := (claim_C5 ⟨[(0, ⟨some ⟨false, [3]⟩, "a"⟩)], 1, []⟩ 0 ⟨some ⟨false, [3]⟩, "a"⟩
      ⟨false, [2]⟩ (by decide)).2.1 (by decide)
    exact h.trans (by decide)

/-- C8: when addModel(m) succeeds (the engine accepts the model) and m has
no existing default-connection mapping, the called Connection — its handle
after the ensure-initialized step — becomes m's default; when m already has
a mapping entry, a successful addModel(m) leaves that entry unchanged; and
setDefaultConnection(m) on any Connection unconditionally overrides the
mapping with the calling handle. -/
theorem claim_C8 (w : World) (c : DQConnectionHandle) (m : Nat) :
    (alistLookup w.mapping (some m) = none →
      (addModel w c (some m) true).1 = true ∧
      alistLookup (addModel w c (some m) true).2.1.mapping (some m) =
        some (addModel w c (some m) true).2.2) ∧
    (∀ v, alistLookup w.mapping (some m) = some v →
      alistLookup (addModel w c (some m) true).2.1.mapping (some m) = some v) ∧
    alistLookup (setDefaultConnection w c (some m)).mapping (some m) = some c := by
  refine ⟨?_, ?_, ?_⟩
  · intro hnone
    refine ⟨rfl, ?_⟩
    simp only [addModel, eq_self_iff_true, if_true, Bool.true_and, alistContains,
      updatePriv_mapping, preparePriv_mapping, hnone, Option.isSome_none, Bool.not_false]
    exact alistLookup_set_self _ _ _
  · intro v hv
    simp only [addModel, eq_self_iff_true, if_true, Bool.true_and, alistContains,
      updatePriv_mapping, preparePriv_mapping, hv, Option.isSome_some, Bool.not_true,
      Bool.false_eq_true, if_false]
  · exact alistLookup_set_self _ _ _

/-- Witness for C8: a fresh world where model 7 is unmapped (the first
addModel establishes the default), a world where model 7 already maps to
connection 0 (a second successful addModel leaves it), and an unconditional
setDefaultConnection override. -/
theorem claim_C8_witness :
    ((addModel ⟨[], 0, []⟩ none (some 7) true).1 = true ∧
      alistLookup (addModel ⟨[], 0, []⟩ none (some 7) true).2.1.mapping (some 7) =
        some (addModel ⟨[], 0, []⟩ none (some 7) true).2.2) ∧
    alistLookup (addModel ⟨[], 1, [(some 7, some 0)]⟩ none (some 7) true).2.1.mapping (some 7) =
      some (some 0) ∧
    alistLookup (setDefaultConnection ⟨[], 0, [(some 7, some 5)]⟩ (some 4) (some 7)).mapping
      (some 7) = some (some 4) :=
  ⟨(claim_C8 ⟨[], 0, []⟩ none 7).1 (by decide),
    (claim_C8 ⟨[], 1, [(some 7, some 0)]⟩ none 7).2.1 (some 0) (by decide),
    (claim_C8 ⟨[], 0, [(some 7, some 5)]⟩ (some 4) 7).2.2⟩

/-- C9: on a Connection that is not open (null state, absent engine, or
engine not open), setLastQuery leaves the whole state — in particular the
stored last-query slot — unchanged, and lastQuery returns a
default-constructed (empty) query instead of the stored one. -/
theorem claim_C9 (w : World) (c : DQConnectionHandle) (q : String)
    (h : connIsOpen w c = false) :
    setLastQuery w c q = w ∧ lastQuery w c = "" := by
  constructor
  · simp [setLastQuery, h]
  · simp [lastQuery, h]

/-- Witness for C9: a closed connection whose slot holds "old"; setLastQuery
of "next" changes nothing and lastQuery reads back the empty default, not
"old". -/
theorem claim_C9_witness :
    setLastQuery ⟨[(0, ⟨some ⟨false, []⟩, "old"⟩)], 1, []⟩ (some 0) "next" =
      ⟨[(0, ⟨some ⟨false, []⟩, "old"⟩)], 1, []⟩ ∧
    lastQuery ⟨[(0, ⟨some ⟨false, []⟩, "old"⟩)], 1, []⟩ (some 0) = "" :=
  claim_C9 ⟨[(0, ⟨some ⟨false, []⟩, "old"⟩)], 1, []⟩ (some 0) "next" (by decide)

/-- C10: addModel on a null model-metadata pointer returns false leaving the
whole world (heap — so no allocation — and mapping) and the handle
untouched, whatever the engine would have answered; defaultConnection on a
null pointer returns the null Connection without emitting the not-bound
warning. -/
theorem claim_C10 (w : World) (c : DQConnectionHandle) (engineOk : Bool) :
    addModel w c none engineOk = (false, w, c) ∧
    defaultConnection w none = (none, false) :=
  ⟨rfl, rfl⟩
